import Mathlib

/-!
Shallow embedding of `src/lib/node/chart.js` (class `FFChart`): the echarts
clock override (`fixZrender`, `echartsUpdate`) and the frame bridge
(`update`, `updateNow`, `start`, `updateCallback`, `destroy`).

JavaScript numbers (times, deltas, intervals) are modelled as `Rat`.  Side
effects are recorded as explicit event traces (`Ev`), and operations that can
raise a JavaScript `TypeError` return `Except String`.
-/

/-- Animation primitive ("clip") of the chart engine's driver.  Clips live in
the charting library, outside this repository; spec section 3 gives their
contract: each exposes `step(time, delta) -> finished` and an optional
`ondestroy` hook, and they form a singly linked sequence, embedded here as a
`List`.  The step outcome is modelled as data: `finSteps` lists the step
counts at which `step` reports finished, and `steps` counts how many times
the clip has been stepped so far. -/
structure Clip where
  id : Nat
  finSteps : List Nat
  steps : Nat
  hasOndestroy : Bool
deriving DecidableEq

/-- Step a clip once: the bumped clip state, and whether this call of `step`
reported finished. -/
def Clip.step (c : Clip) : Clip × Bool :=
  ({ c with steps := c.steps + 1 }, c.finSteps.contains c.steps)

/-- Observable events of a run: clip steps and destroy hooks, the driver
frame hook `onframe(delta)`, the `trigger("frame", delta)` emission, the
stage update, invocations of the user callback (recording the value of the
accumulator `this.time` at the moment of the call), and chart disposal. -/
inductive Ev
  | stepped (id : Nat) (t d : Rat)
  | destroyed (id : Nat)
  | onframe (d : Rat)
  | frameEvent (d : Rat)
  | stageUpdate
  | callUser (acc : Rat)
  | disposed
deriving DecidableEq

/-- Whether an event is a user-callback invocation. -/
def Ev.isCallUser : Ev → Bool
  | Ev.callUser _ => true
  | _ => false

/-- Whether an event is the driver frame hook. -/
def Ev.isOnframe : Ev → Bool
  | Ev.onframe _ => true
  | _ => false

/-- Whether an event is the "frame" event emission. -/
def Ev.isFrameEvent : Ev → Bool
  | Ev.frameEvent _ => true
  | _ => false

/-- Whether an event is the stage update. -/
def Ev.isStageUpdate : Ev → Bool
  | Ev.stageUpdate => true
  | _ => false

/-- Whether an event is a step of the clip with the given id. -/
def isSteppedOf (i : Nat) : Ev → Bool
  | Ev.stepped j _ _ => j == i
  | _ => false

/-- Clip traversal of the overridden `animation.update` (chart.js lines
165-177): walk the clip sequence head to tail once.  The successor is the
tail of the list, captured before any unlink, as in the source, where
`const nextClip = clip.next` precedes `removeClip`.  Each clip is stepped
once; a clip whose step reported finished has its `ondestroy` hook invoked
when present and is then unlinked.  The engine's `removeClip` is modelled
from the spec (section 4.1) as removal of the clip from the sequence. -/
def updateClips : List Clip → Rat → Rat → List Clip × List Ev
  | [], _, _ => ([], [])
  | c :: rest, t, d =>
    let s := c.step
    let r := updateClips rest t d
    if s.2 then
      (r.1, (Ev.stepped c.id t d :: if c.hasOndestroy then [Ev.destroyed c.id] else []) ++ r.2)
    else
      (s.1 :: r.1, Ev.stepped c.id t d :: r.2)

/-- Which implementation a function-valued slot of the driver currently
holds: the engine's own (`native`) or the closure assigned by `fixZrender`
(`patched`).  Assigning the slot a second time overwrites it with a closure
of identical behavior, so it stays `patched`. -/
inductive ImplTag
  | native
  | patched
deriving DecidableEq

/-- Animation driver state reachable from the chart handle as
`chart._zr.animation`: the `_running` and `_paused` flags, the clip sequence
(`_clipsHead`), whether the rendering stage exposes an update operation
(tested in the source by `this.stage.update &&`), and the current contents
of the `_startLoop` and `update` slots. -/
structure Animation where
  running : Bool
  paused : Bool
  clips : List Clip
  stageHasUpdate : Bool
  startLoopImpl : ImplTag
  updateImpl : ImplTag
deriving DecidableEq

/-- Body of the overridden `animation.update` (chart.js lines 162-184).
Here `t` and `d` stand for `TimelineUpdate.time` and `TimelineUpdate.delta`,
the host timeline's ambient time and delta, modelled from the spec
(section 6) as the values of the tick being processed.  After the clip
traversal, unless `notTriggerFrameAndStageUpdate` is set, the driver frame
hook fires with the delta, a "frame" event is emitted with the delta, and
the stage update is invoked when the stage exposes one. -/
def animationUpdate (a : Animation) (t d : Rat)
    (notTriggerFrameAndStageUpdate : Bool) : Animation × List Ev :=
  let r := updateClips a.clips t d
  let tailEvs :=
    if notTriggerFrameAndStageUpdate then []
    else [Ev.onframe d, Ev.frameEvent d] ++
      (if a.stageHasUpdate then [Ev.stageUpdate] else [])
  ({ a with clips := r.1 }, r.2 ++ tailEvs)

/-- The clock override install `fixZrender` (chart.js lines 158-185): it
assigns the driver's `_startLoop` slot (now only flips `_running` to true)
and its `update` slot (now the externally clocked `animationUpdate`). -/
def fixZrender (a : Animation) : Animation :=
  { a with startLoopImpl := ImplTag.patched, updateImpl := ImplTag.patched }

/-- Dispatch of `animation.update(...)` through the current `update` slot.
The engine's own free-running update is outside this repository and is not
modelled; after `fixZrender` the slot holds `animationUpdate`. -/
def animAdvance (a : Animation) (t d : Rat) (notTrigger : Bool) :
    Except String (Animation × List Ev) :=
  match a.updateImpl with
  | ImplTag.patched => Except.ok (animationUpdate a t d notTrigger)
  | ImplTag.native => Except.error "native zrender update loop (not modelled)"

/-- Dispatch of `animation._startLoop()` through the current slot.  The
patched slot is the closure assigned at chart.js line 161, which only sets
`_running` to true; the engine's own start loop schedules a timer and is not
modelled. -/
def startLoop (a : Animation) : Except String Animation :=
  match a.startLoopImpl with
  | ImplTag.patched => Except.ok { a with running := true }
  | ImplTag.native => Except.error "native zrender start loop (not modelled)"

/-- Bridge-relevant state of an `FFChart` instance.  `chart` is the echarts
handle, embedded as its animation driver state, the only part of the handle
the bridge reads; it is `none` before `start()` and after `destroy()`, where
the source field holds `undefined` or `null`.  `subscribed` records whether
the bound `updateCallback` is registered with the host timeline. -/
structure ChartState where
  userCallback : Bool
  userCallbackTime : Option Rat
  runUpdateNow : Bool
  time : Rat
  chart : Option Animation
  subscribed : Bool
deriving DecidableEq

namespace FFChart

/-- Constructor state (chart.js lines 36-47) with the `updateNow`
configuration flag left at its default `false`. -/
def initialState : ChartState :=
  { userCallback := false, userCallbackTime := none, runUpdateNow := false,
    time := 0, chart := none, subscribed := false }

/-- The registration `update(func, time = 0.3)` (chart.js lines 85-88): the
callback is stored, and the stored interval is the given one multiplied by
1000 when it is below 50 (read as seconds), else the given one unchanged
(read as milliseconds). -/
def update (s : ChartState) (time : Rat := 0.3) : ChartState :=
  { s with userCallback := true,
           userCallbackTime := some (if time < 50 then time * 1000 else time) }

/-- The `updateNow()` flag setter (chart.js lines 94-96). -/
def updateNow (s : ChartState) : ChartState :=
  { s with runUpdateNow := true }

/-- The `start()` transition (chart.js lines 102-110).  `initECahrts` builds
the handle around a fresh engine animation state and installs the clock
override; `initTexture` and `animations.start()` touch only the visual layer,
which spec section 1 puts out of scope; the bound `updateCallback` is then
subscribed to the host timeline (`TimelineUpdate.addFrameCallback`, a part of
this repository outside src, modelled from spec section 6 as a plain
subscription); finally, when `runUpdateNow` is set, the user callback is
invoked synchronously, which in JavaScript is a `TypeError` when no callback
was registered. -/
def start (s : ChartState) (engineAnim : Animation) :
    Except String (ChartState × List Ev) :=
  let s1 := { s with chart := some (fixZrender engineAnim), subscribed := true }
  if s.runUpdateNow then
    if s.userCallback then Except.ok (s1, [Ev.callUser s1.time])
    else Except.error "TypeError: this.userCallback is not a function"
  else Except.ok (s1, [])

/-- The guarded engine advance `echartsUpdate` (chart.js lines 151-156):
advance only while the driver is `_running` and not `_paused`.  The source
calls `animation.update()` with no argument, so frame notification is on. -/
def echartsUpdate (chart : Animation) (t d : Rat) :
    Except String (Animation × List Ev) :=
  if chart.running && !chart.paused then animAdvance chart t d false
  else Except.ok (chart, [])

/-- The per-frame handler `updateCallback(time, delta)` (chart.js lines
138-148).  With no user callback registered it returns at once; otherwise it
advances the engine through `echartsUpdate`, adds the delta to the
accumulator `this.time`, and when the accumulator has reached
`userCallbackTime` it invokes the user callback with the chart handle
(the event records the accumulator at that moment) and resets the
accumulator to 0.  A `null` chart is a `TypeError` once dereferenced; a
`null` `userCallbackTime` compares as 0, as the JavaScript relational
operator coerces `null`. -/
def updateCallback (s : ChartState) (t d : Rat) :
    Except String (ChartState × List Ev) :=
  if !s.userCallback then Except.ok (s, [])
  else
    match s.chart with
    | none => Except.error "TypeError: Cannot read _zr of null"
    | some chart =>
      match echartsUpdate chart t d with
      | Except.error e => Except.error e
      | Except.ok (chart', advEvs) =>
        let acc := s.time + d
        if s.userCallbackTime.getD 0 ≤ acc then
          Except.ok ({ s with chart := some chart', time := 0 },
            advEvs ++ [Ev.callUser acc])
        else
          Except.ok ({ s with chart := some chart', time := acc }, advEvs)

/-- The `destroy()` teardown (chart.js lines 187-200).
`TimelineUpdate.removeFrameCallback` and the base `super.destroy()` belong to
this repository but are outside src; they are modelled from the spec
(sections 1 and 6) as an unsubscription and a base-lifecycle teardown that
succeed.  Then `this.chart.dispose()` is a `TypeError` when `chart` is
`undefined` (before `start()`) or `null` (after a previous `destroy()`);
otherwise the handle is disposed and the callback, interval, handler and
handle fields are nulled.  The accumulator `this.time` and `runUpdateNow`
are not reset by the source. -/
def destroy (s : ChartState) : Except String (ChartState × List Ev) :=
  match s.chart with
  | none => Except.error "TypeError: Cannot read dispose of null"
  | some _ =>
    Except.ok ({ s with
        subscribed := false, chart := none,
        userCallback := false, userCallbackTime := none }, [Ev.disposed])

/-- Deliver a sequence of host ticks `(time, delta)` to the per-frame
handler, threading the state and concatenating the event traces. -/
def runTicks (s : ChartState) : List (Rat × Rat) → Except String (ChartState × List Ev)
  | [] => Except.ok (s, [])
  | (t, d) :: ts =>
    match updateCallback s t d with
    | Except.error e => Except.error e
    | Except.ok (s1, evs) =>
      match runTicks s1 ts with
      | Except.error e => Except.error e
      | Except.ok (s2, evs2) => Except.ok (s2, evs ++ evs2)

/-- Run `start()` and then a sequence of host ticks, concatenating the
traces; ticks are processed only after `start()` has returned. -/
def startThenTicks (s : ChartState) (engineAnim : Animation)
    (ts : List (Rat × Rat)) : Except String (ChartState × List Ev) :=
  match start s engineAnim with
  | Except.error e => Except.error e
  | Except.ok (s1, evs) =>
    match runTicks s1 ts with
    | Except.error e => Except.error e
    | Except.ok (s2, evs2) => Except.ok (s2, evs ++ evs2)

end FFChart

/-- Iterate the overridden clip traversal over successive ticks,
concatenating the traces. -/
def iterClips (cs : List Clip) : List (Rat × Rat) → List Clip × List Ev
  | [] => (cs, [])
  | (t, d) :: ts =>
    let r := updateClips cs t d
    let r2 := iterClips r.1 ts
    (r2.1, r.2 ++ r2.2)

/-- Deltas of a tick sequence. -/
def deltas (ts : List (Rat × Rat)) : List Rat := ts.map Prod.snd

/-- Closed form of the per-clip trace of one traversal: the step, then the
destroy hook exactly when this step finished the clip and a hook is
present. -/
def clipTrace (t d : Rat) (c : Clip) : List Ev :=
  Ev.stepped c.id t d ::
    (if c.step.2 then (if c.hasOndestroy then [Ev.destroyed c.id] else []) else [])

/-- Closed form of the per-clip result of one traversal: the clip is gone
when this step finished it, otherwise it survives with its step count
bumped. -/
def clipNext (c : Clip) : Option Clip :=
  if c.step.2 then none else some c.step.1

/-- Sample clip: finishes on its third step, no destroy hook. -/
def demoClip : Clip :=
  { id := 1, finSteps := [2], steps := 0, hasOndestroy := false }

/-- Sample engine animation state: running, not paused, one live clip, a
stage with an update operation, override installed. -/
def demoAnim : Animation :=
  { running := true, paused := false, clips := [demoClip], stageHasUpdate := true,
    startLoopImpl := ImplTag.patched, updateImpl := ImplTag.patched }

/-- Bridge state right after a successful `start()` from the initial state
with engine state `demoAnim`. -/
def startedState : ChartState :=
  { FFChart.initialState with chart := some (fixZrender demoAnim), subscribed := true }

/-! Helper lemmas shared by the claim theorems. -/

/-- The clip traversal emits only step and destroy events: any predicate
false on those counts 0 over its trace. -/
theorem updateClips_countP_zero (p : Ev → Bool)
    (hs : ∀ i t d, p (Ev.stepped i t d) = false)
    (hd : ∀ i, p (Ev.destroyed i) = false)
    (cs : List Clip) (t d : Rat) : ((updateClips cs t d).2.countP p) = 0 := by
  induction cs with
  | nil => simp [updateClips]
  | cons c rest ih =>
    simp only [updateClips]
    by_cases hf : c.step.2
    · cases hOd : c.hasOndestroy <;>
        simp [hf, hOd, List.countP_append, List.countP_cons, hs, hd, ih]
    · simp [hf, List.countP_cons, hs, ih]

/-- The full overridden update emits no user-callback event, whichever way
the notify flag is set. -/
theorem animationUpdate_countP_callUser (a : Animation) (t d : Rat) (nt : Bool) :
    ((animationUpdate a t d nt).2.countP Ev.isCallUser) = 0 := by
  have h0 := updateClips_countP_zero Ev.isCallUser
    (fun _ _ _ => rfl) (fun _ => rfl) a.clips t d
  cases nt <;> cases hS : a.stageHasUpdate <;>
    simp [animationUpdate, hS, List.countP_append, List.countP_cons, Ev.isCallUser, h0]

/-- The guarded engine advance (with the override installed) succeeds and
its trace holds no user-callback event. -/
theorem echartsUpdate_no_callUser (a : Animation) (t d : Rat)
    (a' : Animation) (evs : List Ev)
    (h : FFChart.echartsUpdate a t d = Except.ok (a', evs)) :
    evs.filter Ev.isCallUser = [] := by
  rw [List.filter_eq_nil_iff]
  intro e he
  by_cases hr : a.running && !a.paused
  · cases hI : a.updateImpl
    · simp [FFChart.echartsUpdate, hr, animAdvance, hI] at h
    · simp [FFChart.echartsUpdate, hr, animAdvance, hI] at h
      have hcount := animationUpdate_countP_callUser a t d false
      rw [h] at hcount
      exact (List.countP_eq_zero.1 hcount) e he
  · simp [FFChart.echartsUpdate, hr] at h
    rw [h.2] at he
    cases he

/-! Claim theorems. -/

/-- Claim C3 (confirmed): for every interval value given to `update`, the
stored normalized interval is the input times 1000 when the input is
strictly below 50 and the input unchanged otherwise; in particular 1.2
normalizes to 1200, 1500 stays 1500, and the boundary input 50 is kept as
50 milliseconds, not multiplied. -/
theorem c3_interval_rule (s : ChartState) (t : Rat) :
    (FFChart.update s t).userCallbackTime = some (if t < 50 then t * 1000 else t)
    ∧ (FFChart.update s t).userCallback = true
    ∧ (FFChart.update s 1.2).userCallbackTime = some 1200
    ∧ (FFChart.update s 1500).userCallbackTime = some 1500
    ∧ (FFChart.update s 50).userCallbackTime = some 50 := by
  refine ⟨rfl, rfl, ?_, ?_, ?_⟩ <;> norm_num [FFChart.update]

/-- Claim C10 (confirmed): `update` called without an interval argument uses
the default 0.3, and the below-50 normalization stores exactly 300
milliseconds. -/
theorem c10_default_interval (s : ChartState) :
    FFChart.update s = FFChart.update s 0.3
    ∧ (FFChart.update s).userCallbackTime = some 300 :=
  ⟨rfl, by norm_num [FFChart.update]⟩

/-- Concrete bridge state with no user callback registered but a live,
running chart: the setting of claim C1. -/
def c1State : ChartState :=
  { userCallback := false, userCallbackTime := none, runUpdateNow := false,
    time := 0, chart := some demoAnim, subscribed := true }

/-- Claim C1 (corrected), counterexample: with no user callback registered,
the per-frame handler returns with the state unchanged and an empty trace —
no engine advance happens — although the chart is running, unpaused, holds a
live clip, and an engine advance at this tick would have stepped it. -/
theorem c1_counterexample :
    c1State.userCallback = false
    ∧ c1State.chart = some demoAnim
    ∧ demoAnim.running = true ∧ demoAnim.paused = false
    ∧ FFChart.updateCallback c1State 16 16 = Except.ok (c1State, [])
    ∧ FFChart.echartsUpdate demoAnim 16 16 =
        Except.ok ({ demoAnim with clips := [{ demoClip with steps := 1 }] },
          [Ev.stepped 1 16 16, Ev.onframe 16, Ev.frameEvent 16, Ev.stageUpdate]) :=
  ⟨rfl, rfl, rfl, rfl, rfl, rfl⟩

/-- Claim C1 (corrected), amended: for every tick delivered to the per-frame
handler while no user callback is registered, the handler returns
immediately without performing the engine advance — the state is unchanged
and no event is emitted, so chart animation does not progress through this
handler without a registered callback. -/
theorem c1_amended_no_callback_no_advance (s : ChartState) (t d : Rat)
    (h : s.userCallback = false) :
    FFChart.updateCallback s t d = Except.ok (s, []) := by
  simp [FFChart.updateCallback, h]

/-- Witness for the amended claim C1 at a concrete input. -/
theorem c1_amended_witness :
    FFChart.updateCallback c1State 16 16 = Except.ok (c1State, []) :=
  c1_amended_no_callback_no_advance c1State 16 16 rfl

/-- Claim C2 (corrected), counterexample: `destroy()` before `start()`
raises a TypeError (the null chart handle is disposed), and after a
successful `start()` and a first `destroy()`, a second `destroy()` raises
the same TypeError instead of being a no-op. -/
theorem c2_counterexample :
    FFChart.destroy FFChart.initialState
        = Except.error "TypeError: Cannot read dispose of null"
    ∧ ∃ s1 s2, FFChart.start FFChart.initialState demoAnim = Except.ok (s1, [])
        ∧ FFChart.destroy s1 = Except.ok (s2, [Ev.disposed])
        ∧ FFChart.destroy s2 = Except.error "TypeError: Cannot read dispose of null" :=
  ⟨rfl, startedState, FFChart.initialState, rfl, rfl, rfl⟩

/-- Claim C2 (corrected), amended: `destroy()` when no chart handle is
present (before `start()`, or after a previous `destroy()`) raises a
TypeError from disposing the null handle, rather than being a tolerated
no-op; only a `destroy()` with a handle present succeeds, and it leaves a
state in which a second `destroy()` raises. -/
theorem c2_amended_destroy_not_noop (s : ChartState) :
    (s.chart = none →
      FFChart.destroy s = Except.error "TypeError: Cannot read dispose of null")
    ∧ (∀ a, s.chart = some a →
        ∃ s2, FFChart.destroy s = Except.ok (s2, [Ev.disposed])
          ∧ s2.chart = none
          ∧ FFChart.destroy s2
              = Except.error "TypeError: Cannot read dispose of null") := by
  constructor
  · intro h
    simp [FFChart.destroy, h]
  · intro a h
    refine ⟨{ s with
                subscribed := false, chart := none,
                userCallback := false, userCallbackTime := none }, ?_, rfl, ?_⟩
    · simp [FFChart.destroy, h]
    · simp [FFChart.destroy]

/-- Witness for the amended claim C2 at a concrete input. -/
theorem c2_amended_witness :
    FFChart.destroy FFChart.initialState
        = Except.error "TypeError: Cannot read dispose of null" :=
  (c2_amended_destroy_not_noop FFChart.initialState).1 rfl

/-- Claim C7 (confirmed): after a `destroy()` from any state holding a chart
handle, delivering one more tick to a stale retained reference of the
per-frame handler neither throws nor advances the engine: the disposed
state has no user callback, so the handler's guard returns before the
advance, with the state unchanged and an empty trace. -/
theorem c7_stale_tick_safe (s : ChartState) (a : Animation) (t d : Rat)
    (h : s.chart = some a) :
    ∃ s2, FFChart.destroy s = Except.ok (s2, [Ev.disposed])
      ∧ FFChart.updateCallback s2 t d = Except.ok (s2, [])
      ∧ s2.chart = none ∧ s2.userCallback = false := by
  refine ⟨{ s with
              subscribed := false, chart := none,
              userCallback := false, userCallbackTime := none }, ?_, ?_, rfl, rfl⟩
  · simp [FFChart.destroy, h]
  · simp [FFChart.updateCallback]

/-- Witness for claim C7 at a concrete input. -/
theorem c7_stale_tick_safe_witness :
    ∃ s2, FFChart.destroy startedState = Except.ok (s2, [Ev.disposed])
      ∧ FFChart.updateCallback s2 9 9 = Except.ok (s2, [])
      ∧ s2.chart = none ∧ s2.userCallback = false :=
  c7_stale_tick_safe startedState (fixZrender demoAnim) 9 9 rfl

/-- Claim C9 (confirmed): when the invoke-immediately flag is set before
`start()` and a callback is registered, `start()` invokes the registered
callback exactly once, synchronously within `start()` itself — its trace is
the single user-callback event even when zero ticks are ever delivered —
and in any start-then-ticks run this invocation is the head of the whole
trace, before every tick-driven event. -/
theorem c9_updateNow_fires_once_in_start (s : ChartState) (a : Animation)
    (hNow : s.runUpdateNow = true) (hcb : s.userCallback = true) :
    FFChart.start s a
        = Except.ok ({ s with chart := some (fixZrender a), subscribed := true },
            [Ev.callUser s.time])
    ∧ ([Ev.callUser s.time].countP Ev.isCallUser) = 1
    ∧ (∀ ts s2 evs2,
        FFChart.runTicks { s with chart := some (fixZrender a), subscribed := true } ts
            = Except.ok (s2, evs2) →
        FFChart.startThenTicks s a ts = Except.ok (s2, Ev.callUser s.time :: evs2)) := by
  have h1 : FFChart.start s a
      = Except.ok ({ s with chart := some (fixZrender a), subscribed := true },
          [Ev.callUser s.time]) := by
    simp [FFChart.start, hNow, hcb]
  refine ⟨h1, by simp [List.countP_cons, Ev.isCallUser], ?_⟩
  intro ts s2 evs2 hrun
  simp [FFChart.startThenTicks, h1, hrun]

/-- Bridge state of the C9 scenario: a callback registered through `update`
with interval 1500 and the invoke-immediately flag set by `updateNow`. -/
def c9State : ChartState :=
  FFChart.updateNow (FFChart.update FFChart.initialState 1500)

/-- Witness for claim C9 at a concrete input. -/
theorem c9_witness :
    FFChart.start c9State demoAnim
        = Except.ok ({ c9State with chart := some (fixZrender demoAnim), subscribed := true },
            [Ev.callUser c9State.time])
    ∧ ([Ev.callUser c9State.time].countP Ev.isCallUser) = 1
    ∧ (∀ ts s2 evs2,
        FFChart.runTicks { c9State with chart := some (fixZrender demoAnim), subscribed := true } ts
            = Except.ok (s2, evs2) →
        FFChart.startThenTicks c9State demoAnim ts
            = Except.ok (s2, Ev.callUser c9State.time :: evs2)) :=
  c9_updateNow_fires_once_in_start c9State demoAnim rfl rfl

/-- Claim C6 (confirmed): every run of the overridden update with frame
notification enabled (the source's default, since `animation.update()` is
called with no argument) first completes the clip traversal and then
invokes the driver frame hook with the delta, emits the "frame" event with
the delta, and invokes the stage update exactly when the stage exposes one;
with notification disabled, none of those three side effects occur. -/
theorem c6_frame_notify (a : Animation) (t d : Rat) :
    (animationUpdate a t d false).2
        = (updateClips a.clips t d).2 ++
          ([Ev.onframe d, Ev.frameEvent d] ++
            (if a.stageHasUpdate then [Ev.stageUpdate] else []))
    ∧ ((animationUpdate a t d false).2.countP Ev.isStageUpdate
        = if a.stageHasUpdate then 1 else 0)
    ∧ (animationUpdate a t d true).2 = (updateClips a.clips t d).2
    ∧ ((animationUpdate a t d true).2.countP Ev.isOnframe = 0)
    ∧ ((animationUpdate a t d true).2.countP Ev.isFrameEvent = 0)
    ∧ ((animationUpdate a t d true).2.countP Ev.isStageUpdate = 0) := by
  have hstage := updateClips_countP_zero Ev.isStageUpdate
    (fun _ _ _ => rfl) (fun _ => rfl) a.clips t d
  have honframe := updateClips_countP_zero Ev.isOnframe
    (fun _ _ _ => rfl) (fun _ => rfl) a.clips t d
  have hframe := updateClips_countP_zero Ev.isFrameEvent
    (fun _ _ _ => rfl) (fun _ => rfl) a.clips t d
  refine ⟨by simp [animationUpdate], ?_, by simp [animationUpdate], ?_, ?_, ?_⟩
  · cases hS : a.stageHasUpdate <;>
      simp [animationUpdate, hS, List.countP_append, List.countP_cons,
        Ev.isStageUpdate, hstage]
  · simp [animationUpdate, honframe]
  · simp [animationUpdate, hframe]
  · simp [animationUpdate, hstage]

/-- Claim C8 (confirmed): installing the clock override twice on the same
handle yields exactly the state of installing it once, so every advance
behaves identically; the replaced start-loop still only flips the running
flag to true; and with notification on, one advance fires the frame hook
once, the "frame" event once, and the stage update exactly when the stage
exposes one — no double registration of side effects. -/
theorem c8_fixZrender_idempotent (a : Animation) :
    fixZrender (fixZrender a) = fixZrender a
    ∧ (∀ t d nt, animAdvance (fixZrender (fixZrender a)) t d nt
        = animAdvance (fixZrender a) t d nt)
    ∧ startLoop (fixZrender (fixZrender a)) = startLoop (fixZrender a)
    ∧ startLoop (fixZrender a) = Except.ok { fixZrender a with running := true }
    ∧ (∀ t d, animAdvance (fixZrender a) t d false
          = Except.ok (animationUpdate (fixZrender a) t d false)
        ∧ ((animationUpdate (fixZrender a) t d false).2.countP Ev.isOnframe = 1)
        ∧ ((animationUpdate (fixZrender a) t d false).2.countP Ev.isFrameEvent = 1)
        ∧ ((animationUpdate (fixZrender a) t d false).2.countP Ev.isStageUpdate
            = if a.stageHasUpdate then 1 else 0)) := by
  refine ⟨rfl, fun t d nt => rfl, rfl, rfl, fun t d => ⟨rfl, ?_, ?_, ?_⟩⟩
  · have h := updateClips_countP_zero Ev.isOnframe
      (fun _ _ _ => rfl) (fun _ => rfl) a.clips t d
    cases hS : a.stageHasUpdate <;>
      simp [animationUpdate, fixZrender, hS, List.countP_append, List.countP_cons,
        Ev.isOnframe, h]
  · have h := updateClips_countP_zero Ev.isFrameEvent
      (fun _ _ _ => rfl) (fun _ => rfl) a.clips t d
    cases hS : a.stageHasUpdate <;>
      simp [animationUpdate, fixZrender, hS, List.countP_append, List.countP_cons,
        Ev.isFrameEvent, h]
  · have h := updateClips_countP_zero Ev.isStageUpdate
      (fun _ _ _ => rfl) (fun _ => rfl) a.clips t d
    cases hS : a.stageHasUpdate <;>
      simp [animationUpdate, fixZrender, hS, List.countP_append, List.countP_cons,
        Ev.isStageUpdate, h]

/-- The one-pass trace of the clip traversal is the concatenation, head to
tail, of the per-clip traces: one step event per clip, followed by its
destroy event exactly when this step finished it and a hook is present. -/
theorem updateClips_trace_eq (cs : List Clip) (t d : Rat) :
    (updateClips cs t d).2 = cs.flatMap (clipTrace t d) := by
  induction cs with
  | nil => simp [updateClips]
  | cons c rest ih =>
    simp only [updateClips, List.flatMap_cons, clipTrace]
    by_cases h : c.step.2 <;> simp [h, ih]

/-- The clip sequence left by one pass of the traversal: clips finished by
this pass are unlinked, the others survive with their step count bumped. -/
theorem updateClips_result_eq (cs : List Clip) (t d : Rat) :
    (updateClips cs t d).1 = cs.filterMap clipNext := by
  induction cs with
  | nil => simp [updateClips]
  | cons c rest ih =>
    simp only [updateClips, List.filterMap_cons, clipNext]
    by_cases h : c.step.2 <;> simp [h, ih]

/-- A clip id absent from the sequence is neither stepped by a traversal nor
present in the resulting sequence. -/
theorem updateClips_absent_id (i : Nat) (cs : List Clip) (t d : Rat)
    (h : i ∉ cs.map Clip.id) :
    ((updateClips cs t d).2.countP (isSteppedOf i)) = 0
    ∧ i ∉ (updateClips cs t d).1.map Clip.id := by
  induction cs with
  | nil => simp [updateClips]
  | cons c rest ih =>
    have hid : ¬(i = c.id) ∧ i ∉ rest.map Clip.id := by
      simpa [List.mem_cons] using h
    obtain ⟨ih1, ih2⟩ := ih hid.2
    have hbeq : (c.id == i) = false := by
      simp [beq_eq_false_iff_ne]
      exact fun hc => hid.1 hc.symm
    constructor
    · simp only [updateClips]
      by_cases hf : c.step.2
      · cases hOd : c.hasOndestroy <;>
          simp [hf, hOd, List.countP_append, List.countP_cons, isSteppedOf,
            hbeq, ih1]
      · simp [hf, List.countP_cons, isSteppedOf, hbeq, ih1]
    · simp only [updateClips]
      by_cases hf : c.step.2
      · simpa [hf] using ih2
      · have hstep : (c.step.1).id = c.id := rfl
        simp [hf, hstep, List.mem_cons, ih2]
        exact hid.1

/-- Under distinct clip ids, each clip of the sequence is stepped exactly
once by one pass of the traversal. -/
theorem updateClips_stepped_once (cs : List Clip) (t d : Rat)
    (hnd : (cs.map Clip.id).Nodup) (c : Clip) (hc : c ∈ cs) :
    ((updateClips cs t d).2.countP (isSteppedOf c.id)) = 1 := by
  induction cs with
  | nil => cases hc
  | cons c0 rest ih =>
    have hnd' : c0.id ∉ rest.map Clip.id ∧ (rest.map Clip.id).Nodup := by
      simpa [List.nodup_cons] using hnd
    rcases List.mem_cons.1 hc with rfl | hmem
    · have h0 := (updateClips_absent_id c.id rest t d hnd'.1).1
      simp only [updateClips]
      by_cases hf : c.step.2
      · cases hOd : c.hasOndestroy <;>
          simp [hf, hOd, List.countP_append, List.countP_cons, isSteppedOf, h0]
      · simp [hf, List.countP_cons, isSteppedOf, h0]
    · have hne : (c0.id == c.id) = false := by
        simp [beq_eq_false_iff_ne]
        intro heq
        exact hnd'.1 (heq ▸ List.mem_map_of_mem Clip.id hmem)
      have hcount := ih hnd'.2 hmem
      simp only [updateClips]
      by_cases hf : c0.step.2
      · cases hOd : c0.hasOndestroy <;>
          simp [hf, hOd, List.countP_append, List.countP_cons, isSteppedOf,
            hne, hcount]
      · simp [hf, List.countP_cons, isSteppedOf, hne, hcount]

/-- A clip id absent from the sequence is never stepped by any number of
further traversal passes. -/
theorem iterClips_absent_id (i : Nat) :
    ∀ (ts : List (Rat × Rat)) (cs : List Clip), i ∉ cs.map Clip.id →
      ((iterClips cs ts).2.countP (isSteppedOf i)) = 0 := by
  intro ts
  induction ts with
  | nil =>
    intro cs _
    simp [iterClips]
  | cons td ts ih =>
    obtain ⟨t, d⟩ := td
    intro cs h
    obtain ⟨h1, h2⟩ := updateClips_absent_id i cs t d h
    simp [iterClips, List.countP_append, h1, ih _ h2]

/-- Under distinct clip ids, a clip finished by this pass does not appear in
the resulting sequence. -/
theorem finished_clip_gone (cs : List Clip) (t d : Rat)
    (hnd : (cs.map Clip.id).Nodup) (c : Clip) (hc : c ∈ cs)
    (hf : c.step.2 = true) :
    c.id ∉ (updateClips cs t d).1.map Clip.id := by
  rw [updateClips_result_eq]
  intro hmem
  obtain ⟨c', hc'mem, hc'id⟩ := List.mem_map.1 hmem
  obtain ⟨c0, hc0, hc0next⟩ := List.mem_filterMap.1 hc'mem
  have hc0f : c0.step.2 = false := by
    by_contra hcon
    simp [clipNext, eq_true_of_ne_false hcon] at hc0next
  have hcid : c0.id = c.id := by
    have h1 : c' = c0.step.1 := by
      simp [clipNext, hc0f] at hc0next
      exact hc0next.symm
    have h2 : (c0.step.1).id = c0.id := rfl
    rw [h1, h2] at hc'id
    exact hc'id
  have heq : c0 = c := List.inj_on_of_nodup_map hnd hc0 hc hcid
  rw [heq, hf] at hc0f
  cases hc0f

/-- Claim C5 (confirmed): one call of the overridden advance traverses the
clip sequence head to tail in a single pass — its trace is the in-order
concatenation of the per-clip traces, each clip is stepped exactly once per
call, a clip whose step reports finished has its destroy hook invoked when
present and is then unlinked (the successor being the tail captured before
the unlink), and a finished clip is absent from the resulting sequence and
is never stepped by any number of later calls. -/
theorem c5_single_pass (cs : List Clip) (t d : Rat)
    (hnd : (cs.map Clip.id).Nodup) :
    (updateClips cs t d).2 = cs.flatMap (clipTrace t d)
    ∧ (updateClips cs t d).1 = cs.filterMap clipNext
    ∧ (∀ c ∈ cs, ((updateClips cs t d).2.countP (isSteppedOf c.id)) = 1)
    ∧ (∀ c ∈ cs, c.step.2 = true →
        c.id ∉ (updateClips cs t d).1.map Clip.id
        ∧ ∀ ts, ((iterClips (updateClips cs t d).1 ts).2.countP
            (isSteppedOf c.id)) = 0) := by
  refine ⟨updateClips_trace_eq cs t d, updateClips_result_eq cs t d, ?_, ?_⟩
  · intro c hc
    exact updateClips_stepped_once cs t d hnd c hc
  · intro c hc hf
    have hgone := finished_clip_gone cs t d hnd c hc hf
    exact ⟨hgone, fun ts => iterClips_absent_id c.id ts _ hgone⟩

/-- Clip sequence of the C5 witness: clip 1 finishes on its first step and
has a destroy hook, clip 2 survives, clip 3 finishes on its first step with
no hook. -/
def c5Clips : List Clip :=
  [{ id := 1, finSteps := [0], steps := 0, hasOndestroy := true },
   { id := 2, finSteps := [5], steps := 0, hasOndestroy := true },
   { id := 3, finSteps := [0], steps := 0, hasOndestroy := false }]

/-- Witness for claim C5 at a concrete input. -/
theorem c5_single_pass_witness :
    ((c5Clips.map Clip.id).Nodup)
    ∧ ((updateClips c5Clips 7 3).2 = c5Clips.flatMap (clipTrace 7 3)
      ∧ (updateClips c5Clips 7 3).1 = c5Clips.filterMap clipNext
      ∧ (∀ c ∈ c5Clips, ((updateClips c5Clips 7 3).2.countP (isSteppedOf c.id)) = 1)
      ∧ (∀ c ∈ c5Clips, c.step.2 = true →
          c.id ∉ (updateClips c5Clips 7 3).1.map Clip.id
          ∧ ∀ ts, ((iterClips (updateClips c5Clips 7 3).1 ts).2.countP
              (isSteppedOf c.id)) = 0)) :=
  ⟨by decide, c5_single_pass c5Clips 7 3 (by decide)⟩

/-- One run of the per-frame handler with a callback registered, a stored
interval and a patched chart: it succeeds, the advance trace holds no
user-callback event, the override stays installed, and the accumulator
either reaches the interval — firing the callback with the accumulator of
that moment and resetting it to 0 — or keeps the accumulated value. -/
theorem updateCallback_run (s : ChartState) (T : Rat) (a : Animation) (t d : Rat)
    (hcb : s.userCallback = true) (hT : s.userCallbackTime = some T)
    (hch : s.chart = some a) (hI : a.updateImpl = ImplTag.patched) :
    ∃ a' advEvs,
      (FFChart.updateCallback s t d =
        if T ≤ s.time + d then
          Except.ok ({ s with chart := some a', time := 0 },
            advEvs ++ [Ev.callUser (s.time + d)])
        else
          Except.ok ({ s with chart := some a', time := s.time + d }, advEvs))
      ∧ a'.updateImpl = ImplTag.patched
      ∧ advEvs.filter Ev.isCallUser = [] := by
  by_cases hr : a.running && !a.paused
  · refine ⟨(animationUpdate a t d false).1, (animationUpdate a t d false).2,
      ?_, ?_, ?_⟩
    · simp [FFChart.updateCallback, hcb, hch, FFChart.echartsUpdate, hr,
        animAdvance, hI, hT]
    · simp [animationUpdate, hI]
    · exact List.filter_eq_nil_iff.2
        (List.countP_eq_zero.1 (animationUpdate_countP_callUser a t d false))
  · refine ⟨a, [], ?_, hI, rfl⟩
    simp [FFChart.updateCallback, hcb, hch, FFChart.echartsUpdate, hr, hT]

/-- Unfolding equation of `runTicks` at a cons, for single-step rewriting. -/
theorem runTicks_cons (s : ChartState) (t d : Rat) (ts : List (Rat × Rat)) :
    FFChart.runTicks s ((t, d) :: ts) =
      match FFChart.updateCallback s t d with
      | Except.error e => Except.error e
      | Except.ok (s1, evs) =>
        match FFChart.runTicks s1 ts with
        | Except.error e => Except.error e
        | Except.ok (s2, evs2) => Except.ok (s2, evs ++ evs2) := rfl

/-- Auxiliary window induction for claim C4: from any starting accumulator,
over a run of ticks in which only the last one lets the accumulator reach
the interval, the handler run succeeds, its trace holds exactly one
user-callback event — recording the starting accumulator plus the sum of
all deltas of the window — and the run ends with accumulator exactly 0 and
the standing hypotheses re-established. -/
theorem runTicks_window_aux (T : Rat) :
    ∀ (ts : List (Rat × Rat)) (s : ChartState) (a : Animation),
      s.userCallback = true → s.userCallbackTime = some T →
      s.chart = some a → a.updateImpl = ImplTag.patched →
      (∀ i, i < ts.length → s.time + ((deltas ts).take i).sum < T) →
      T ≤ s.time + (deltas ts).sum →
      ts ≠ [] →
      ∃ s' evs, FFChart.runTicks s ts = Except.ok (s', evs)
        ∧ evs.filter Ev.isCallUser = [Ev.callUser (s.time + (deltas ts).sum)]
        ∧ s'.time = 0
        ∧ s'.userCallback = true ∧ s'.userCallbackTime = some T
        ∧ ∃ a', s'.chart = some a' ∧ a'.updateImpl = ImplTag.patched := by
  intro ts
  induction ts with
  | nil =>
    intro s a _ _ _ _ _ _ hne
    exact absurd rfl hne
  | cons td rest ih =>
    obtain ⟨t, d⟩ := td
    intro s a hcb hT hch hI hpre hfire _
    obtain ⟨a', advEvs, heq, hI', hadv⟩ := updateCallback_run s T a t d hcb hT hch hI
    rcases rest with _ | ⟨td2, rest2⟩
    · have hTd : T ≤ s.time + d := by simpa [deltas] using hfire
      rw [if_pos hTd] at heq
      refine ⟨{ s with chart := some a', time := 0 },
        advEvs ++ [Ev.callUser (s.time + d)], ?_, ?_, rfl, hcb, hT,
        a', rfl, hI'⟩
      · simp [FFChart.runTicks, heq]
      · simp [List.filter_append, hadv, Ev.isCallUser, deltas]
    · have hd : s.time + d < T := by
        have h1 := hpre 1 (by simp)
        simpa [deltas] using h1
      rw [if_neg (not_le.2 hd)] at heq
      have hpre' : ∀ i, i < (td2 :: rest2).length →
          ({ s with chart := some a', time := s.time + d } : ChartState).time
            + ((deltas (td2 :: rest2)).take i).sum < T := by
        intro i hi
        have h2 := hpre (i + 1) (by simpa using Nat.succ_lt_succ hi)
        simpa [deltas, List.take_succ_cons, add_assoc] using h2
      have hfire' : T ≤
          ({ s with chart := some a', time := s.time + d } : ChartState).time
            + (deltas (td2 :: rest2)).sum := by
        simpa [deltas, add_assoc] using hfire
      obtain ⟨s', evs2, hrun, hfil, h0, hcb', hT', hch'⟩ :=
        ih { s with chart := some a', time := s.time + d } a'
          (by simp [hcb]) (by simp [hT]) (by simp) hI' hpre' hfire' (by simp)
      refine ⟨s', advEvs ++ evs2, ?_, ?_, h0, hcb', hT', hch'⟩
      · rw [runTicks_cons, heq]
        simp [hrun]
      · rw [List.filter_append, hadv, List.nil_append, hfil]
        simp [deltas, add_assoc]

/-- Claim C4 (confirmed): for every sequence of ticks fed to the per-frame
handler with a callback registered and an interval stored, starting with
accumulator 0 — the state at `start()`, and the state immediately after any
fire, which the conclusion re-establishes — if no proper leading run of the
deltas reaches the interval while the full sum does, then the run succeeds,
exactly one callback fire occurs, the accumulator observed at the moment of
the fire equals the sum of the deltas received since the window began, that
sum is at least the configured interval, and the accumulator is exactly 0
immediately after the fire, with no carry-over of overshoot. -/
theorem c4_accumulator_invariant (s : ChartState) (T : Rat) (a : Animation)
    (ts : List (Rat × Rat))
    (hcb : s.userCallback = true) (hT : s.userCallbackTime = some T)
    (hch : s.chart = some a) (hI : a.updateImpl = ImplTag.patched)
    (h0 : s.time = 0) (hne : ts ≠ [])
    (hpre : ∀ i, i < ts.length → ((deltas ts).take i).sum < T)
    (hfire : T ≤ (deltas ts).sum) :
    ∃ s' evs, FFChart.runTicks s ts = Except.ok (s', evs)
      ∧ evs.filter Ev.isCallUser = [Ev.callUser ((deltas ts).sum)]
      ∧ T ≤ (deltas ts).sum
      ∧ s'.time = 0 ∧ s'.userCallback = true ∧ s'.userCallbackTime = some T := by
  obtain ⟨s', evs, h1, h2, h3, h4, h5, _⟩ :=
    runTicks_window_aux T ts s a hcb hT hch hI
      (by intro i hi; rw [h0, zero_add]; exact hpre i hi)
      (by rw [h0, zero_add]; exact hfire) hne
  rw [h0, zero_add] at h2
  exact ⟨s', evs, h1, h2, hfire, h3, h4, h5⟩

/-- Engine animation state of the C4 witness: override installed, driver not
running, no clips. -/
def c4Anim : Animation :=
  { running := false, paused := false, clips := [], stageHasUpdate := false,
    startLoopImpl := ImplTag.patched, updateImpl := ImplTag.patched }

/-- Bridge state of the C4 witness: callback registered with a stored
interval of 100 milliseconds, accumulator 0, chart present. -/
def c4State : ChartState :=
  { userCallback := true, userCallbackTime := some 100, runUpdateNow := false,
    time := 0, chart := some c4Anim, subscribed := true }

/-- Witness for claim C4 at a concrete input: two ticks of 60 milliseconds
against a 100 millisecond interval; the second tick fires with accumulator
120. -/
theorem c4_accumulator_invariant_witness :
    ∃ s' evs, FFChart.runTicks c4State [(16, 60), (32, 60)] = Except.ok (s', evs)
      ∧ evs.filter Ev.isCallUser = [Ev.callUser ((deltas [(16, 60), (32, 60)]).sum)]
      ∧ (100 : Rat) ≤ (deltas [(16, 60), (32, 60)]).sum
      ∧ s'.time = 0 ∧ s'.userCallback = true ∧ s'.userCallbackTime = some 100 :=
  c4_accumulator_invariant c4State 100 c4Anim [(16, 60), (32, 60)]
    rfl rfl rfl rfl rfl (by simp)
    (fun i hi => by
      have h2 : i < 2 := by simpa using hi
      interval_cases i <;> norm_num [deltas])
    (by norm_num [deltas])
